import Mathlib

/-! # ECG monitor front end (`public/script-js.js`)

A shallow embedding of the sample pipeline of the page script: the WebSocket
`onmessage` handler (electrode check, five-point moving average, the chart
buffer, the metrics window, the metrics trigger), `updateMetrics`, and the
pause and reset buttons.

Conventions of the embedding.

* A JavaScript array is a `List Int`; `push v` is `xs ++ [v]`, `shift()` is
  `List.tail` (on the empty array both drop nothing).
* `val` is the integer returned by `parseInt(event.data)`; a message that does
  not parse to an integer is outside the model.
* The numbers of the script are IEEE doubles.  The filter and the first
  reading of `updateMetrics` (`mathRound`, `amplitude`, `threshold5`,
  `peakStep`, ...) compute over the integers and the rationals: that is what the
  doubles give while the samples are integers of magnitude at most `2^31`
  (the declared samples are 0..1023).  `Math.round(s / 5)` is then the exact
  `floor(s / 5 + 1/2)`, and a comparison against
  `threshold = min + amplitude * 0.6` is the exact one, made after scaling both
  sides by five.
* The second reading of `updateMetrics` (`amplitudeDouble`, `thresholdDouble`,
  `peakStepDouble`, ...) carries out the roundings of the doubles, for windows
  of integer-valued doubles of any magnitude short of overflow.  The two
  readings are proved equal on windows of integers of magnitude at most `2^31`
  (`updateMetricsDouble_eq`); they differ on large samples.
* What the handlers do to the page (status box, metrics fields, chart redraw,
  button label) is returned as a list of `Effect`s, in program order.
-/

set_option maxRecDepth 100000

namespace ECG

/-! ## Data model -/

/-- Value of `const DATA_LENGTH = 250`. -/
def DATA_LENGTH : Nat := 250

/-- The module-level variables of the script that the sample path reads or
writes: `isPaused`, `data.datasets[0].data`, `lastDataPoints`,
`previousValues`. -/
structure State where
  isPaused : Bool
  data : List Int
  lastDataPoints : List Int
  previousValues : List Int
  deriving DecidableEq, Repr

/-- What `updateMetrics` writes to the page: the number in front of `" BPM"`,
the number in front of `" unidades"`, and the text of `signalQuality`. -/
structure Metrics where
  bpm : Int
  amplitude : Int
  quality : String
  deriving DecidableEq, Repr

/-- Calls that reach the page. -/
inductive Effect where
  /-- Result of `updateStatus`: the `innerText` of `#status` and the
  `className` of `#statusBox`. -/
  | status (innerText : String) (className : String)
  /-- A call of `updateMetrics()`; `shown` is what it wrote, `none` when it
  returned at its length guard. -/
  | metricsCall (shown : Option Metrics)
  /-- Either `ecgChart.update('quiet')` (`quiet = true`) or `ecgChart.update()`. -/
  | chartUpdate (quiet : Bool)
  /-- New `innerText` of the pause button. -/
  | pauseLabel (innerText : String)
  deriving DecidableEq, Repr

/-- The state the script sets up at load time (lines 3-7 and 20-24). -/
def initialState : State where
  isPaused := false
  data := List.replicate DATA_LENGTH 512
  lastDataPoints := []
  previousValues := List.replicate 5 0

/-! ## Arithmetic helpers -/

/-- `Math.round(num / den)` for integers `num` and `den > 0`:
`floor(num / den + 1/2)`, halves rounded towards plus infinity.  The quotient
is taken exactly; the double quotient of the script rounds to the same integer
for `den = 5` (or `1`) and `num` of magnitude up to `5 * 2^31`, not for every
larger `num`. -/
def mathRound (num den : Int) : Int := (2 * num + den) / (2 * den)

/-- `Math.max(...xs)` on a non-empty array.  (On the empty array JavaScript
gives `-Infinity`; `updateMetrics` never gets there, its guard returns
first.) -/
def listMax : List Int → Int
  | [] => 0
  | x :: xs => xs.foldl max x

/-- `Math.min(...xs)` on a non-empty array (see `listMax`). -/
def listMin : List Int → Int
  | [] => 0
  | x :: xs => xs.foldl min x

/-! ## `updateStatus` -/

/-- `updateStatus(message, isConnected)`. -/
def updateStatus (message : String) (isConnected : Bool) : Effect :=
  Effect.status ("Estado: " ++ message)
    (if isConnected then "status-box connected" else "status-box disconnected")

/-! ## `updateMetrics` -/

/-- `max - min` of lines 169-171. -/
def amplitude (lastDataPoints : List Int) : Int :=
  listMax lastDataPoints - listMin lastDataPoints

/-- Five times `threshold = min + amplitude * 0.6` (line 175), computed
exactly: an integer.  See `thresholdDouble` for the double of the script. -/
def threshold5 (min amplitude : Int) : Int := 5 * min + 3 * amplitude

/-- One iteration of the loop of lines 178-185 on the pair
`(aboveThreshold, peaks)`, for the sample `x = lastDataPoints[i]`.
`x > threshold` is `5 * x > thr5` and `x < threshold` is `5 * x < thr5`, for
the exact threshold.  See `peakStepDouble` for the comparisons in doubles. -/
def peakStep (thr5 : Int) (st : Bool × Nat) (x : Int) : Bool × Nat :=
  if st.1 = false ∧ 5 * x > thr5 then (true, st.2 + 1)
  else if st.1 = true ∧ 5 * x < thr5 then (false, st.2)
  else st

/-- The whole loop of lines 174-185, from `aboveThreshold = false`,
`peaks = 0`. -/
def peakLoop (thr5 : Int) (lastDataPoints : List Int) : Bool × Nat :=
  lastDataPoints.foldl (peakStep thr5) (false, 0)

/-- The value of `peaks` after the loop, with the threshold of the window. -/
def countPeaks (lastDataPoints : List Int) : Nat :=
  (peakLoop (threshold5 (listMin lastDataPoints) (amplitude lastDataPoints))
    lastDataPoints).2

/-- Lines 191-194. -/
def qualityOf (amplitude : Int) (peaks : Nat) : String :=
  if amplitude < 100 then "Baja"
  else if peaks = 0 then "Sin pulso detectado"
  else "Buena"

/-- Lines 168-199: what `updateMetrics` computes and shows once past its
guard.  `60 / 5` is `12`. -/
def metricsOf (lastDataPoints : List Int) : Metrics where
  bpm := mathRound ((countPeaks lastDataPoints : Int) * 12) 1
  amplitude := amplitude lastDataPoints
  quality := qualityOf (amplitude lastDataPoints) (countPeaks lastDataPoints)

/-- `updateMetrics()` on the current `lastDataPoints`: `none` when it returns at
`if (lastDataPoints.length < 30) return;`. -/
def updateMetrics (lastDataPoints : List Int) : Option Metrics :=
  if lastDataPoints.length < 30 then none else some (metricsOf lastDataPoints)

/-! ## `updateMetrics` in double arithmetic

Lines 168-199 again, with the roundings of the doubles of the script, for a
window of integer-valued doubles.  A double that is a multiple of `2^-53` is
represented by its numerator over `2^53`. -/

/-- The number of low bits of `n` that do not fit in a significand of 53 bits:
`0` when `n < 2^53`, else the `sh` with `2^52 <= n / 2^sh < 2^53`.  The first
argument bounds the recursion, and `n` itself is always enough
(`excessBits_spec`). -/
def excessBits : Nat → Nat → Nat
  | 0, _ => 0
  | fuel + 1, n => if n < 2 ^ 53 then 0 else excessBits fuel (n / 2) + 1

/-- The natural number `n` rounded to 53 significant bits, ties to even: the
rounding of the result of every operation on doubles. -/
def roundNat (n : Nat) : Nat :=
  let sh := excessBits n n
  if sh = 0 then n
  else
    let q := n / 2 ^ sh
    let r := n % 2 ^ sh
    let half := 2 ^ (sh - 1)
    (if r < half then q else if half < r then q + 1 else if q % 2 = 0 then q else q + 1)
      * 2 ^ sh

/-- Rounding to 53 significant bits of an integer, sign and magnitude. -/
def roundToDouble (z : Int) : Int :=
  if z < 0 then - (roundNat z.natAbs : Int) else (roundNat z.natAbs : Int)

/-- The double written `0.6` in the script is `sixTenths / 2^53`. -/
def sixTenths : Int := 5404319552844595

/-- The double `amplitude = max - min` of line 171. -/
def amplitudeDouble (lastDataPoints : List Int) : Int :=
  roundToDouble (listMax lastDataPoints - listMin lastDataPoints)

/-- `2^53` times the double `threshold = min + amplitude * 0.6` of line 175: the
product is rounded, then the sum. -/
def thresholdDouble (min amplitude : Int) : Int :=
  roundToDouble (min * 2 ^ 53 + roundToDouble (amplitude * sixTenths))

/-- One iteration of the loop of lines 178-185 against the double threshold
`thr / 2^53`: `x > threshold` is `x * 2^53 > thr`. -/
def peakStepDouble (thr : Int) (st : Bool × Nat) (x : Int) : Bool × Nat :=
  if st.1 = false ∧ x * 2 ^ 53 > thr then (true, st.2 + 1)
  else if st.1 = true ∧ x * 2 ^ 53 < thr then (false, st.2)
  else st

/-- The loop of lines 174-185 against the double threshold. -/
def peakLoopDouble (thr : Int) (lastDataPoints : List Int) : Bool × Nat :=
  lastDataPoints.foldl (peakStepDouble thr) (false, 0)

/-- The value of `peaks` after the loop, in double arithmetic. -/
def countPeaksDouble (lastDataPoints : List Int) : Nat :=
  (peakLoopDouble (thresholdDouble (listMin lastDataPoints) (amplitudeDouble lastDataPoints))
    lastDataPoints).2

/-- Lines 168-199 in double arithmetic (`peaks * 12` is exact). -/
def metricsOfDouble (lastDataPoints : List Int) : Metrics where
  bpm := mathRound ((countPeaksDouble lastDataPoints : Int) * 12) 1
  amplitude := amplitudeDouble lastDataPoints
  quality := qualityOf (amplitudeDouble lastDataPoints) (countPeaksDouble lastDataPoints)

/-- `updateMetrics()` in double arithmetic. -/
def updateMetricsDouble (lastDataPoints : List Int) : Option Metrics :=
  if lastDataPoints.length < 30 then none else some (metricsOfDouble lastDataPoints)

/-! ## The handlers -/

/-- Lines 121-123: the new `previousValues` and `filteredVal`. -/
def movingAverage (previousValues : List Int) (val : Int) : List Int × Int :=
  let previousValues := previousValues.tail ++ [val]
  (previousValues,
    mathRound (previousValues.foldl (fun a b => a + b) 0) previousValues.length)

/-- `wsConnection.onmessage` (lines 107-139) with `val = parseInt(event.data)`. -/
def onmessage (s : State) (val : Int) : State × List Effect :=
  if s.isPaused then (s, [])
  else if val = 0 then (s, [updateStatus "Electrodos desconectados" false])
  else
    let filtered := movingAverage s.previousValues val
    let data := (s.data ++ [filtered.2]).tail
    let pushed := s.lastDataPoints ++ [filtered.2]
    let lastDataPoints := if pushed.length > 100 then pushed.tail else pushed
    (State.mk s.isPaused data lastDataPoints filtered.1,
      [updateStatus "Electrodos conectados" true]
        ++ (if lastDataPoints.length % 20 = 0
              then [Effect.metricsCall (updateMetrics lastDataPoints)] else [])
        ++ [Effect.chartUpdate true])

/-- Click handler of the pause button (lines 203-206). -/
def pauseClick (s : State) : State × List Effect :=
  (State.mk (!s.isPaused) s.data s.lastDataPoints s.previousValues,
    [Effect.pauseLabel (if !s.isPaused then "Reanudar" else "Pausar")])

/-- Click handler of the reset button (lines 208-213). -/
def resetClick (s : State) : State × List Effect :=
  (State.mk s.isPaused (List.replicate DATA_LENGTH 512) [] (List.replicate 5 0),
    [Effect.chartUpdate false])

/-- What can happen to a session. -/
inductive Event where
  | message (val : Int)
  | pause
  | reset
  deriving DecidableEq, Repr

/-- One event handled. -/
def step (s : State) : Event → State × List Effect
  | Event.message val => onmessage s val
  | Event.pause => pauseClick s
  | Event.reset => resetClick s

/-- The state after a sequence of events. -/
def run (s : State) (events : List Event) : State :=
  events.foldl (fun s e => (step s e).1) s

/-- Whether a list of effects contains a call of `updateMetrics`. -/
def callsUpdateMetrics (effects : List Effect) : Bool :=
  effects.any (fun e => match e with
    | Effect.metricsCall _ => true
    | _ => false)

/-- The number of accepted samples (a message with `val` non-zero, received
while not paused) since the last reset, or since the start when there was no
reset; `paused` and `n` are the pause flag and the count before `events`. -/
def acceptedSinceReset (paused : Bool) (n : Nat) : List Event → Nat
  | [] => n
  | Event.message val :: events =>
      acceptedSinceReset paused (if paused = false ∧ val ≠ 0 then n + 1 else n) events
  | Event.pause :: events => acceptedSinceReset (!paused) n events
  | Event.reset :: events => acceptedSinceReset paused 0 events

/-- The samples that come after the first sample strictly greater than the
threshold: the window without its longest initial run of samples `x` with
`x <= threshold`, and without the sample that ends this run. -/
def samplesAfterFirstAbove (thr5 : Int) (lastDataPoints : List Int) : List Int :=
  (lastDataPoints.dropWhile (fun y => decide (5 * y ≤ thr5))).tail

/-! ## Maximum and minimum of a window -/

theorem foldl_max_ge (xs : List Int) (a : Int) :
    a ≤ xs.foldl max a ∧ ∀ x ∈ xs, x ≤ xs.foldl max a := by
  induction xs generalizing a with
  | nil => simp
  | cons y ys ih =>
    simp only [List.foldl_cons, List.mem_cons, forall_eq_or_imp]
    obtain ⟨h1, h2⟩ := ih (max a y)
    exact ⟨le_trans (le_max_left a y) h1, le_trans (le_max_right a y) h1, h2⟩

theorem foldl_max_mem (xs : List Int) (a : Int) :
    xs.foldl max a = a ∨ xs.foldl max a ∈ xs := by
  induction xs generalizing a with
  | nil => simp
  | cons y ys ih =>
    simp only [List.foldl_cons, List.mem_cons]
    rcases ih (max a y) with h | h
    · rcases max_choice a y with h2 | h2
      · left; rw [h, h2]
      · right; left; rw [h, h2]
    · right; right; exact h

theorem foldl_min_le (xs : List Int) (a : Int) :
    xs.foldl min a ≤ a ∧ ∀ x ∈ xs, xs.foldl min a ≤ x := by
  induction xs generalizing a with
  | nil => simp
  | cons y ys ih =>
    simp only [List.foldl_cons, List.mem_cons, forall_eq_or_imp]
    obtain ⟨h1, h2⟩ := ih (min a y)
    exact ⟨le_trans h1 (min_le_left a y), le_trans h1 (min_le_right a y), h2⟩

theorem foldl_min_mem (xs : List Int) (a : Int) :
    xs.foldl min a = a ∨ xs.foldl min a ∈ xs := by
  induction xs generalizing a with
  | nil => simp
  | cons y ys ih =>
    simp only [List.foldl_cons, List.mem_cons]
    rcases ih (min a y) with h | h
    · rcases min_choice a y with h2 | h2
      · left; rw [h, h2]
      · right; left; rw [h, h2]
    · right; right; exact h

theorem le_listMax {w : List Int} {x : Int} (hx : x ∈ w) : x ≤ listMax w := by
  cases w with
  | nil => simp at hx
  | cons y ys =>
    rcases List.mem_cons.mp hx with h | h
    · subst h; exact (foldl_max_ge ys x).1
    · exact (foldl_max_ge ys y).2 x h

theorem listMin_le {w : List Int} {x : Int} (hx : x ∈ w) : listMin w ≤ x := by
  cases w with
  | nil => simp at hx
  | cons y ys =>
    rcases List.mem_cons.mp hx with h | h
    · subst h; exact (foldl_min_le ys x).1
    · exact (foldl_min_le ys y).2 x h

theorem listMax_mem {w : List Int} (hw : w ≠ []) : listMax w ∈ w := by
  cases w with
  | nil => exact absurd rfl hw
  | cons y ys =>
    rcases foldl_max_mem ys y with h | h
    · simp [listMax, h]
    · exact List.mem_cons_of_mem _ h

theorem listMin_mem {w : List Int} (hw : w ≠ []) : listMin w ∈ w := by
  cases w with
  | nil => exact absurd rfl hw
  | cons y ys =>
    rcases foldl_min_mem ys y with h | h
    · simp [listMin, h]
    · exact List.mem_cons_of_mem _ h

theorem ne_nil_of_listMin_lt_listMax {w : List Int} (h : listMin w < listMax w) :
    w ≠ [] := by
  rintro rfl
  simp [listMin, listMax] at h

/-- In a window whose maximum exceeds its minimum, the maximum is strictly above
the threshold. -/
theorem listMax_above_threshold {w : List Int} (h : listMin w < listMax w) :
    5 * listMax w > threshold5 (listMin w) (amplitude w) := by
  unfold threshold5 amplitude
  omega

/-- A window of equal samples has that sample as maximum and as minimum. -/
theorem listMax_listMin_of_flat {w : List Int} {v : Int} (hw : w ≠ [])
    (hflat : ∀ x ∈ w, x = v) : listMax w = v ∧ listMin w = v :=
  ⟨hflat _ (listMax_mem hw), hflat _ (listMin_mem hw)⟩

/-! ## The peak loop -/

theorem peakStep_not_above {thr5 : Int} {x : Int} (n : Nat) (hx : 5 * x ≤ thr5) :
    peakStep thr5 (false, n) x = (false, n) := by
  simp [peakStep]; omega

theorem peakStep_first_above {thr5 : Int} {x : Int} (n : Nat) (hx : 5 * x > thr5) :
    peakStep thr5 (false, n) x = (true, n + 1) := by
  simp [peakStep]; omega

theorem peakStep_stays_above {thr5 : Int} {x : Int} (n : Nat) (hx : thr5 ≤ 5 * x) :
    peakStep thr5 (true, n) x = (true, n) := by
  simp [peakStep]; omega

theorem peakStep_at_threshold (thr5 : Int) (st : Bool × Nat) (x : Int)
    (hx : 5 * x = thr5) : peakStep thr5 st x = st := by
  unfold peakStep
  rw [if_neg (by omega), if_neg (by omega)]

theorem peakStep_mono (thr5 : Int) (st : Bool × Nat) (x : Int) :
    st.2 ≤ (peakStep thr5 st x).2 := by
  unfold peakStep
  split
  · simp
  · split <;> simp

theorem foldl_peakStep_mono (thr5 : Int) (xs : List Int) (st : Bool × Nat) :
    st.2 ≤ (xs.foldl (peakStep thr5) st).2 := by
  induction xs generalizing st with
  | nil => simp
  | cons y ys ih =>
    simp only [List.foldl_cons]
    exact le_trans (peakStep_mono thr5 st y) (ih _)

theorem foldl_peakStep_not_above (thr5 : Int) (xs : List Int) (n : Nat)
    (h : ∀ y ∈ xs, 5 * y ≤ thr5) : xs.foldl (peakStep thr5) (false, n) = (false, n) := by
  induction xs with
  | nil => simp
  | cons y ys ih =>
    simp only [List.foldl_cons]
    rw [peakStep_not_above n (h y (List.mem_cons_self _ _))]
    exact ih (fun z hz => h z (List.mem_cons_of_mem _ hz))

theorem foldl_peakStep_stays_above (thr5 : Int) (xs : List Int) (n : Nat)
    (h : ∀ y ∈ xs, thr5 ≤ 5 * y) : xs.foldl (peakStep thr5) (true, n) = (true, n) := by
  induction xs with
  | nil => simp
  | cons y ys ih =>
    simp only [List.foldl_cons]
    rw [peakStep_stays_above n (h y (List.mem_cons_self _ _))]
    exact ih (fun z hz => h z (List.mem_cons_of_mem _ hz))

/-- A window with a sample above the threshold splits at the first such
sample; what follows it is `samplesAfterFirstAbove`. -/
theorem split_at_first_above (thr5 : Int) (w : List Int) (h : ∃ x ∈ w, 5 * x > thr5) :
    ∃ pre x, w = pre ++ x :: samplesAfterFirstAbove thr5 w ∧
      (∀ y ∈ pre, 5 * y ≤ thr5) ∧ 5 * x > thr5 := by
  induction w with
  | nil => simp at h
  | cons y ys ih =>
    by_cases hy : 5 * y ≤ thr5
    · have h2 : ∃ x ∈ ys, 5 * x > thr5 := by
        obtain ⟨x, hx, hgt⟩ := h
        rcases List.mem_cons.mp hx with e | e
        · subst e; omega
        · exact ⟨x, e, hgt⟩
      obtain ⟨pre, x, hsplit, hpre, hx⟩ := ih h2
      refine ⟨y :: pre, x, ?_, ?_, hx⟩
      · have e : samplesAfterFirstAbove thr5 (y :: ys) = samplesAfterFirstAbove thr5 ys := by
          simp [samplesAfterFirstAbove, List.dropWhile_cons, hy]
        rw [e, List.cons_append, ← hsplit]
      · intro z hz
        rcases List.mem_cons.mp hz with e | e
        · subst e; exact hy
        · exact hpre z e
    · refine ⟨[], y, ?_, by simp, by omega⟩
      simp [samplesAfterFirstAbove, List.dropWhile_cons, hy]

/-- The loop counts at least one peak as soon as one sample is above the
threshold. -/
theorem peakLoop_pos (thr5 : Int) (w : List Int) (h : ∃ x ∈ w, 5 * x > thr5) :
    1 ≤ (peakLoop thr5 w).2 := by
  obtain ⟨pre, x, hsplit, hpre, hx⟩ := split_at_first_above thr5 w h
  unfold peakLoop
  rw [hsplit, List.foldl_append, foldl_peakStep_not_above thr5 pre 0 hpre, List.foldl_cons,
    peakStep_first_above 0 hx]
  exact foldl_peakStep_mono thr5 _ (true, 0 + 1)

/-- The loop counts exactly one peak when nothing after the first sample above
the threshold is below the threshold. -/
theorem peakLoop_eq_one (thr5 : Int) (w : List Int) (h : ∃ x ∈ w, 5 * x > thr5)
    (hafter : ∀ y ∈ samplesAfterFirstAbove thr5 w, ¬ 5 * y < thr5) :
    peakLoop thr5 w = (true, 1) := by
  obtain ⟨pre, x, hsplit, hpre, hx⟩ := split_at_first_above thr5 w h
  unfold peakLoop
  rw [hsplit, List.foldl_append, foldl_peakStep_not_above thr5 pre 0 hpre, List.foldl_cons,
    peakStep_first_above 0 hx]
  exact foldl_peakStep_stays_above thr5 _ (0 + 1) (fun y hy => not_lt.mp (hafter y hy))

/-- The loop counts no peak when no sample is above the threshold. -/
theorem peakLoop_eq_zero (thr5 : Int) (w : List Int) (h : ∀ y ∈ w, 5 * y ≤ thr5) :
    peakLoop thr5 w = (false, 0) :=
  foldl_peakStep_not_above thr5 w 0 h

theorem countPeaks_pos {w : List Int} (h : listMin w < listMax w) : 1 ≤ countPeaks w :=
  peakLoop_pos _ w
    ⟨listMax w, listMax_mem (ne_nil_of_listMin_lt_listMax h), listMax_above_threshold h⟩

theorem mathRound_one (n : Int) : mathRound n 1 = n := by
  unfold mathRound
  omega

theorem metricsOf_bpm (w : List Int) : (metricsOf w).bpm = 12 * (countPeaks w : Int) := by
  show mathRound ((countPeaks w : Int) * 12) 1 = 12 * (countPeaks w : Int)
  rw [mathRound_one]
  ring

theorem updateMetrics_of_length {w : List Int} (hlen : 30 ≤ w.length) :
    updateMetrics w = some (metricsOf w) := by
  unfold updateMetrics
  rw [if_neg (by omega)]

theorem qualityOf_ne_no_pulse {w : List Int} :
    qualityOf (amplitude w) (countPeaks w) ≠ "Sin pulso detectado" := by
  unfold qualityOf
  split
  · decide
  · rename_i hamp
    have hlt : listMin w < listMax w := by
      unfold amplitude at hamp
      omega
    have hpos := countPeaks_pos hlt
    rw [if_neg (by omega)]
    decide

/-- A non-decreasing window whose maximum exceeds its minimum has exactly one
peak. -/
theorem countPeaks_of_nondecreasing (w : List Int) (hs : w.Pairwise (fun a b => a ≤ b))
    (hamp : listMin w < listMax w) : countPeaks w = 1 := by
  have hex : ∃ x ∈ w, 5 * x > threshold5 (listMin w) (amplitude w) :=
    ⟨listMax w, listMax_mem (ne_nil_of_listMin_lt_listMax hamp), listMax_above_threshold hamp⟩
  have key : peakLoop (threshold5 (listMin w) (amplitude w)) w = (true, 1) := by
    apply peakLoop_eq_one _ w hex
    obtain ⟨pre, x, hsplit, _, hx⟩ := split_at_first_above _ w hex
    intro y hy
    rw [hsplit] at hs
    have h2 := (List.pairwise_append.mp hs).2.1
    have h3 := (List.pairwise_cons.mp h2).1 y hy
    omega
  unfold countPeaks
  rw [key]

/-! ## Rounding to a double -/

theorem excessBits_spec (fuel n : Nat) (h : n ≤ fuel) :
    n / 2 ^ excessBits fuel n < 2 ^ 53 ∧
      (excessBits fuel n = 0 ∨ 2 ^ 52 ≤ n / 2 ^ excessBits fuel n) := by
  induction fuel generalizing n with
  | zero =>
    have : n = 0 := by omega
    subst this
    simp [excessBits]
  | succ f ih =>
    by_cases hn : n < 2 ^ 53
    · have e : excessBits (f + 1) n = 0 := by
        rw [excessBits, if_pos hn]
      rw [e]
      simp only [pow_zero, Nat.div_one]
      exact ⟨hn, Or.inl trivial⟩
    · have hrec := ih (n / 2) (by omega)
      have e : excessBits (f + 1) n = excessBits f (n / 2) + 1 := by
        rw [excessBits, if_neg hn]
      rw [e, pow_succ', ← Nat.div_div_eq_div_mul]
      refine ⟨hrec.1, Or.inr ?_⟩
      rcases hrec.2 with h0 | h1
      · rw [h0]
        simp only [pow_zero, Nat.div_one]
        omega
      · exact h1

theorem roundNat_spec (n : Nat) :
    (n < 2 ^ 53 ∧ roundNat n = n) ∨
      ∃ P : Nat, (∃ sh : Nat, P = 2 ^ sh) ∧ 2 ≤ P ∧ P ∣ roundNat n ∧
        2 * roundNat n ≤ 2 * n + P ∧ 2 * n ≤ 2 * roundNat n + P ∧
        2 ^ 52 * P ≤ n ∧ n < 2 ^ 53 * P := by
  obtain ⟨hlt, hge⟩ := excessBits_spec n n (le_refl n)
  by_cases h0 : excessBits n n = 0
  · left
    rw [h0] at hlt
    simp only [pow_zero, Nat.div_one] at hlt
    exact ⟨hlt, by simp [roundNat, h0]⟩
  · right
    have hge' : 2 ^ 52 ≤ n / 2 ^ excessBits n n := by
      rcases hge with h | h
      · exact absurd h h0
      · exact h
    have hP : 2 ^ excessBits n n = 2 * 2 ^ (excessBits n n - 1) := by
      rw [← pow_succ']
      congr 1
      omega
    have hhalf : 0 < 2 ^ (excessBits n n - 1) := Nat.two_pow_pos _
    have hPpos : 0 < 2 ^ excessBits n n := Nat.two_pow_pos _
    have hdm := Nat.div_add_mod n (2 ^ excessBits n n)
    have hr := Nat.mod_lt n hPpos
    have h1 : 2 ^ 52 * 2 ^ excessBits n n ≤ n := (Nat.le_div_iff_mul_le hPpos).mp hge'
    have h2 : n < 2 ^ 53 * 2 ^ excessBits n n := (Nat.div_lt_iff_lt_mul hPpos).mp hlt
    refine ⟨2 ^ excessBits n n, ⟨_, rfl⟩, by omega, ?_, ?_, ?_, h1, h2⟩
    · simp only [roundNat, h0, if_false]
      exact Dvd.intro_left _ rfl
    · simp only [roundNat, h0, if_false]
      generalize hQ : 2 ^ excessBits n n * (n / 2 ^ excessBits n n) = Q at hdm
      have hQ' : n / 2 ^ excessBits n n * 2 ^ excessBits n n = Q := by rw [mul_comm]; exact hQ
      split_ifs <;> simp only [add_mul, one_mul, hQ'] <;> omega
    · simp only [roundNat, h0, if_false]
      generalize hQ : 2 ^ excessBits n n * (n / 2 ^ excessBits n n) = Q at hdm
      have hQ' : n / 2 ^ excessBits n n * 2 ^ excessBits n n = Q := by rw [mul_comm]; exact hQ
      split_ifs <;> simp only [add_mul, one_mul, hQ'] <;> omega

theorem roundToDouble_spec (z : Int) :
    (-2 ^ 53 < z ∧ z < 2 ^ 53 ∧ roundToDouble z = z) ∨
      ∃ P : Int, (∃ sh : Nat, P = 2 ^ sh) ∧ 2 ≤ P ∧ P ∣ roundToDouble z ∧
        2 * (roundToDouble z - z) ≤ P ∧ 2 * (z - roundToDouble z) ≤ P ∧
        (2 ^ 52 * P ≤ z ∨ 2 ^ 52 * P ≤ -z) ∧ z < 2 ^ 53 * P ∧ -z < 2 ^ 53 * P := by
  rcases roundNat_spec z.natAbs with ⟨hlt, heq⟩ | ⟨P, ⟨sh, hsh⟩, hP2, hdvd, h1, h2, h3, h4⟩
  · left
    unfold roundToDouble
    rw [heq]
    split <;> omega
  · right
    refine ⟨(P : Int), ⟨sh, by rw [hsh]; push_cast; rfl⟩, by omega, ?_, ?_, ?_, ?_, ?_, ?_⟩
    · unfold roundToDouble
      split
      · exact (dvd_neg).mpr (Int.natCast_dvd_natCast.mpr hdvd)
      · exact Int.natCast_dvd_natCast.mpr hdvd
    · unfold roundToDouble; split <;> omega
    · unfold roundToDouble; split <;> omega
    · omega
    · omega
    · omega

theorem two_pow_dvd_two_pow_53 {P : Int} (hP : ∃ sh : Nat, P = 2 ^ sh) (hlt : P < 2 ^ 53) :
    P ∣ 2 ^ 53 := by
  obtain ⟨sh, rfl⟩ := hP
  have h : (2 : Nat) ^ sh < 2 ^ 53 := by exact_mod_cast hlt
  have hle : sh ≤ 53 := by
    by_contra hc
    have : 2 ^ 53 ≤ 2 ^ sh := Nat.pow_le_pow_right (by decide) (by omega)
    omega
  exact pow_dvd_pow 2 hle

theorem eq_of_dvd_sub_of_near {P x y : Int} (hx : P ∣ x) (hy : P ∣ y)
    (h1 : x - y < P) (h2 : y - x < P) : x = y := by
  have h := Int.eq_zero_of_abs_lt_dvd (dvd_sub hx hy) (abs_lt.mpr ⟨by omega, h1⟩)
  omega

theorem roundToDouble_product_spec (a : Int) (ha1 : 0 ≤ a) (ha2 : a ≤ 4294967296) :
    -a ≤ roundToDouble (a * sixTenths) - a * sixTenths ∧
    roundToDouble (a * sixTenths) - a * sixTenths ≤ a ∧
    (5 ∣ a → 5 * roundToDouble (a * sixTenths) = 3 * a * 2 ^ 53) := by
  rcases roundToDouble_spec (a * sixTenths) with
    ⟨h1, h2, heq⟩ | ⟨P, hP, hP2, hdvd, e1, e2, h3, h4, h5⟩
  · rw [heq]
    unfold sixTenths at *
    refine ⟨by omega, by omega, fun h5 => ?_⟩
    omega
  · unfold sixTenths at *
    refine ⟨by omega, by omega, fun h5 => ?_⟩
    obtain ⟨k, rfl⟩ := h5
    have hPlt : P < 2 ^ 53 := by omega
    have hM : P ∣ 3 * k * 2 ^ 53 := Dvd.dvd.mul_left (two_pow_dvd_two_pow_53 hP hPlt) _
    have hp := eq_of_dvd_sub_of_near hdvd hM (by omega) (by omega)
    omega

theorem thresholdDouble_spec (m a : Int) (hm1 : -2147483648 ≤ m) (hm2 : m ≤ 2147483648)
    (ha1 : 0 ≤ a) (ha2 : a ≤ 4294967296) :
    -2 ^ 53 < 5 * thresholdDouble m a - 2 ^ 53 * (5 * m + 3 * a) ∧
    5 * thresholdDouble m a - 2 ^ 53 * (5 * m + 3 * a) < 2 ^ 53 ∧
    (5 ∣ a → 5 * thresholdDouble m a = 2 ^ 53 * (5 * m + 3 * a)) := by
  obtain ⟨p1, p2, p3⟩ := roundToDouble_product_spec a ha1 ha2
  unfold thresholdDouble
  generalize roundToDouble (a * sixTenths) = p at p1 p2 p3
  unfold sixTenths at *
  rcases roundToDouble_spec (m * 2 ^ 53 + p) with
    ⟨h1, h2, heq⟩ | ⟨P, hP, hP2, hdvd, e1, e2, h3, h4, h5⟩
  · rw [heq]
    refine ⟨by omega, by omega, fun h5 => ?_⟩
    have := p3 h5
    omega
  · refine ⟨by omega, by omega, fun h5 => ?_⟩
    have hp := p3 h5
    obtain ⟨k, rfl⟩ := h5
    have hPlt : P < 2 ^ 53 := by omega
    have hS : P ∣ m * 2 ^ 53 + p := by
      have e : m * 2 ^ 53 + p = (m + 3 * k) * 2 ^ 53 := by omega
      rw [e]
      exact Dvd.dvd.mul_left (two_pow_dvd_two_pow_53 hP hPlt) _
    have ht := eq_of_dvd_sub_of_near hdvd hS (by omega) (by omega)
    omega

/-- For a minimum of magnitude at most `2^31` and an amplitude of at most `2^32`,
the comparisons of a sample against the double threshold are the exact ones. -/
theorem thresholdDouble_compare (m a x : Int) (hm1 : -2147483648 ≤ m) (hm2 : m ≤ 2147483648)
    (ha1 : 0 ≤ a) (ha2 : a ≤ 4294967296) :
    (x * 2 ^ 53 > thresholdDouble m a ↔ 5 * x > 5 * m + 3 * a) ∧
    (x * 2 ^ 53 < thresholdDouble m a ↔ 5 * x < 5 * m + 3 * a) := by
  obtain ⟨t1, t2, t3⟩ := thresholdDouble_spec m a hm1 hm2 ha1 ha2
  generalize thresholdDouble m a = t at t1 t2 t3
  by_cases h5 : 5 ∣ a
  · have := t3 h5
    constructor <;> constructor <;> intro h <;> omega
  · have hne : 5 * x ≠ 5 * m + 3 * a := by omega
    constructor <;> constructor <;> intro h <;> omega

theorem roundToDouble_of_small {z : Int} (h1 : -2 ^ 53 < z) (h2 : z < 2 ^ 53) :
    roundToDouble z = z := by
  rcases roundToDouble_spec z with ⟨_, _, heq⟩ | ⟨P, _, hP2, _, _, _, h3, _, _⟩
  · exact heq
  · omega

/-! ## The two readings of `updateMetrics` agree on bounded windows -/

theorem listMin_listMax_bounds {w : List Int}
    (hb : ∀ x ∈ w, -2147483648 ≤ x ∧ x ≤ 2147483648) :
    -2147483648 ≤ listMin w ∧ listMin w ≤ listMax w ∧ listMax w ≤ 2147483648 := by
  by_cases hw : w = []
  · subst hw
    simp [listMin, listMax]
  · exact ⟨(hb _ (listMin_mem hw)).1, listMin_le (listMax_mem hw), (hb _ (listMax_mem hw)).2⟩

theorem amplitudeDouble_eq {w : List Int}
    (hb : ∀ x ∈ w, -2147483648 ≤ x ∧ x ≤ 2147483648) : amplitudeDouble w = amplitude w := by
  obtain ⟨h1, h2, h3⟩ := listMin_listMax_bounds hb
  unfold amplitudeDouble amplitude
  exact roundToDouble_of_small (by omega) (by omega)

theorem peakStepDouble_eq (m a : Int) (hm1 : -2147483648 ≤ m) (hm2 : m ≤ 2147483648)
    (ha1 : 0 ≤ a) (ha2 : a ≤ 4294967296) (st : Bool × Nat) (x : Int) :
    peakStepDouble (thresholdDouble m a) st x = peakStep (threshold5 m a) st x := by
  obtain ⟨c1, c2⟩ := thresholdDouble_compare m a x hm1 hm2 ha1 ha2
  unfold peakStepDouble peakStep threshold5
  simp only [c1, c2]

theorem countPeaksDouble_eq {w : List Int}
    (hb : ∀ x ∈ w, -2147483648 ≤ x ∧ x ≤ 2147483648) : countPeaksDouble w = countPeaks w := by
  obtain ⟨h1, h2, h3⟩ := listMin_listMax_bounds hb
  have ha : 0 ≤ amplitude w ∧ amplitude w ≤ 4294967296 := by
    unfold amplitude
    omega
  have hstep : peakStepDouble (thresholdDouble (listMin w) (amplitude w))
      = peakStep (threshold5 (listMin w) (amplitude w)) := by
    funext st x
    exact peakStepDouble_eq _ _ h1 (by omega) ha.1 ha.2 st x
  unfold countPeaksDouble countPeaks peakLoopDouble peakLoop
  rw [amplitudeDouble_eq hb, hstep]

theorem metricsOfDouble_eq {w : List Int}
    (hb : ∀ x ∈ w, -2147483648 ≤ x ∧ x ≤ 2147483648) : metricsOfDouble w = metricsOf w := by
  unfold metricsOfDouble metricsOf
  rw [amplitudeDouble_eq hb, countPeaksDouble_eq hb]

/-- On a window of integers of magnitude at most `2^31`, `updateMetrics` in
double arithmetic shows what the exact reading shows. -/
theorem updateMetricsDouble_eq {w : List Int}
    (hb : ∀ x ∈ w, -2147483648 ≤ x ∧ x ≤ 2147483648) :
    updateMetricsDouble w = updateMetrics w := by
  unfold updateMetricsDouble updateMetrics
  rw [metricsOfDouble_eq hb]

/-- A non-decreasing window of integers of magnitude at most `2^31` whose maximum
exceeds its minimum has exactly one peak, in double arithmetic too. -/
theorem countPeaksDouble_of_nondecreasing (w : List Int)
    (hb : ∀ x ∈ w, -2147483648 ≤ x ∧ x ≤ 2147483648)
    (hs : w.Pairwise (fun a b => a ≤ b)) (hamp : listMin w < listMax w) :
    countPeaksDouble w = 1 := by
  rw [countPeaksDouble_eq hb]
  exact countPeaks_of_nondecreasing w hs hamp

/-- The exact reading: a window with amplitude at least 100 is `"Buena"` with at
least 12 BPM. -/
theorem metricsOf_good {w : List Int} (hamp : 100 ≤ amplitude w) :
    (metricsOf w).quality = "Buena" ∧ 12 ≤ (metricsOf w).bpm := by
  have hlt : listMin w < listMax w := by
    unfold amplitude at hamp
    omega
  have hpos := countPeaks_pos hlt
  constructor
  · show qualityOf (amplitude w) (countPeaks w) = "Buena"
    unfold qualityOf
    rw [if_neg (by omega), if_neg (by omega)]
  · rw [metricsOf_bpm]
    omega

/-- The exact reading of `updateMetrics` never shows `"Sin pulso detectado"`. -/
theorem updateMetrics_ne_no_pulse {w : List Int} {m : Metrics}
    (hm : updateMetrics w = some m) : m.quality ≠ "Sin pulso detectado" := by
  unfold updateMetrics at hm
  split at hm
  · cases hm
  · cases hm
    exact qualityOf_ne_no_pulse

/-! ## Sample windows -/

/-- Two samples, `2^60` and `2^60 + 256`, both doubles: a non-decreasing window
whose exact threshold `2^60 + 153.6` rounds to the maximum. -/
def windowStep : List Int := [1152921504606846976, 1152921504606847232]

/-- Thirty samples: 29 times `2^60`, then `2^60 + 256`. -/
def windowHuge : List Int :=
  List.replicate 29 1152921504606846976 ++ [1152921504606847232]

/-- Five samples with minimum 400 and maximum 600, so with threshold 520: one
sample equal to the threshold before the first one above it and one after. -/
def windowRamp : List Int := [400, 520, 600, 520, 560]

/-- Thirty samples alternating between 500 and 550: amplitude 50. -/
def windowShallow : List Int :=
  [500, 550, 500, 550, 500, 550, 500, 550, 500, 550,
   500, 550, 500, 550, 500, 550, 500, 550, 500, 550,
   500, 550, 500, 550, 500, 550, 500, 550, 500, 550]

/-- Thirty samples: the twelve of the scenario of the specification, then nine
times a low and a high value. -/
def windowPulse : List Int :=
  [412, 420, 430, 600, 610, 605, 420, 415, 430, 602, 608, 595,
   420, 600, 420, 600, 420, 600, 420, 600, 420, 600,
   420, 600, 420, 600, 420, 600, 420, 600]

/-! ## Claims on `updateMetrics` -/

/-- C6, as stated, fails on large samples: `windowStep` is non-decreasing, its
maximum exceeds its minimum and nothing follows its first sample above the exact
threshold, yet the double threshold equals the maximum, no sample is above it,
and the loop of `updateMetrics` counts no peak. -/
theorem C6_single_crossing_one_peak_counterexample :
    windowStep.Pairwise (fun a b => a ≤ b) ∧
    listMin windowStep < listMax windowStep ∧
    samplesAfterFirstAbove (threshold5 (listMin windowStep) (amplitude windowStep)) windowStep
      = [] ∧
    thresholdDouble (listMin windowStep) (amplitudeDouble windowStep)
      = listMax windowStep * 2 ^ 53 ∧
    countPeaksDouble windowStep = 0 ∧
    countPeaksDouble windowStep ≠ 1 := by
  decide

/-- C6, amended. Rising edges: in a window of integers of magnitude at most
`2^31` whose maximum exceeds its minimum and in which no sample after the first
one strictly above `threshold = min + 0.6 * (max - min)` is strictly below the
threshold, the loop of `updateMetrics`, in double arithmetic, counts exactly one
peak; and a sample equal to the threshold leaves the loop state
`(aboveThreshold, peaks)` as it was. -/
theorem C6_single_crossing_one_peak (w : List Int)
    (hb : ∀ x ∈ w, -2147483648 ≤ x ∧ x ≤ 2147483648)
    (hamp : listMin w < listMax w)
    (hafter : ∀ y ∈ samplesAfterFirstAbove (threshold5 (listMin w) (amplitude w)) w,
      ¬ 5 * y < threshold5 (listMin w) (amplitude w)) :
    countPeaksDouble w = 1 ∧
      ∀ (st : Bool × Nat) (x : Int), 5 * x = threshold5 (listMin w) (amplitude w) →
        peakStepDouble (thresholdDouble (listMin w) (amplitudeDouble w)) st x = st := by
  obtain ⟨h1, h2, h3⟩ := listMin_listMax_bounds hb
  have ha : 0 ≤ amplitude w ∧ amplitude w ≤ 4294967296 := by
    unfold amplitude
    omega
  constructor
  · have hex : ∃ x ∈ w, 5 * x > threshold5 (listMin w) (amplitude w) :=
      ⟨listMax w, listMax_mem (ne_nil_of_listMin_lt_listMax hamp),
        listMax_above_threshold hamp⟩
    rw [countPeaksDouble_eq hb]
    unfold countPeaks
    rw [peakLoop_eq_one _ w hex hafter]
  · intro st x hx
    rw [amplitudeDouble_eq hb, peakStepDouble_eq _ _ h1 (by omega) ha.1 ha.2]
    exact peakStep_at_threshold _ st x hx

/-- C6 amended, at `windowRamp`, whose threshold is 520. -/
theorem C6_single_crossing_one_peak_witness :
    (∀ x ∈ windowRamp, -2147483648 ≤ x ∧ x ≤ 2147483648) ∧
    listMin windowRamp < listMax windowRamp ∧
    threshold5 (listMin windowRamp) (amplitude windowRamp) = 5 * 520 ∧
    samplesAfterFirstAbove (threshold5 (listMin windowRamp) (amplitude windowRamp)) windowRamp
      = [520, 560] ∧
    countPeaksDouble windowRamp = 1 ∧
    ∀ (st : Bool × Nat) (x : Int),
      5 * x = threshold5 (listMin windowRamp) (amplitude windowRamp) →
        peakStepDouble (thresholdDouble (listMin windowRamp) (amplitudeDouble windowRamp)) st x
          = st :=
  ⟨by decide, by decide, by decide, by decide,
    (C6_single_crossing_one_peak windowRamp (by decide) (by decide) (by decide)).1,
    (C6_single_crossing_one_peak windowRamp (by decide) (by decide) (by decide)).2⟩

/-- C7. Quality precedence: for a window of at least 30 samples `updateMetrics`
shows the amplitude `max - min`, and the quality is `"Baja"` whenever the
amplitude is below 100, whatever the peak count; with an amplitude of at least
100 it is `"Sin pulso detectado"` when the peak count is 0 and `"Buena"`
otherwise. -/
theorem C7_quality_precedence (w : List Int) (hlen : 30 ≤ w.length) :
    ∃ m : Metrics, updateMetrics w = some m ∧
      m.amplitude = listMax w - listMin w ∧
      (m.amplitude < 100 → m.quality = "Baja") ∧
      (100 ≤ m.amplitude → countPeaks w = 0 → m.quality = "Sin pulso detectado") ∧
      (100 ≤ m.amplitude → countPeaks w ≠ 0 → m.quality = "Buena") := by
  refine ⟨metricsOf w, updateMetrics_of_length hlen, rfl, ?_, ?_, ?_⟩
  · intro h
    show qualityOf (amplitude w) (countPeaks w) = "Baja"
    have h' : amplitude w < 100 := h
    unfold qualityOf
    rw [if_pos h']
  · intro h h0
    show qualityOf (amplitude w) (countPeaks w) = "Sin pulso detectado"
    have h' : ¬ amplitude w < 100 := not_lt.mpr h
    unfold qualityOf
    rw [if_neg h', if_pos h0]
  · intro h h0
    show qualityOf (amplitude w) (countPeaks w) = "Buena"
    have h' : ¬ amplitude w < 100 := not_lt.mpr h
    unfold qualityOf
    rw [if_neg h', if_neg h0]

/-- C7 at `windowShallow`: fifteen peaks, amplitude 50, quality `"Baja"`. -/
theorem C7_quality_precedence_witness :
    30 ≤ windowShallow.length ∧ countPeaks windowShallow = 15 ∧
    ∃ m : Metrics, updateMetrics windowShallow = some m ∧
      m.amplitude = listMax windowShallow - listMin windowShallow ∧
      (m.amplitude < 100 → m.quality = "Baja") ∧
      (100 ≤ m.amplitude → countPeaks windowShallow = 0 →
        m.quality = "Sin pulso detectado") ∧
      (100 ≤ m.amplitude → countPeaks windowShallow ≠ 0 → m.quality = "Buena") :=
  ⟨by decide, by decide, C7_quality_precedence windowShallow (by decide)⟩

/-- C9. Flat signal: for a window of at least 30 samples that are all equal, the
amplitude is 0, the peak count is 0, and `updateMetrics` shows 0 BPM, amplitude
0 and quality `"Baja"`. -/
theorem C9_flat_window (w : List Int) (v : Int) (hlen : 30 ≤ w.length)
    (hflat : ∀ x ∈ w, x = v) :
    amplitude w = 0 ∧ countPeaks w = 0 ∧
      updateMetrics w = some (Metrics.mk 0 0 "Baja") := by
  have hw : w ≠ [] := by
    rintro rfl
    simp at hlen
  obtain ⟨hmax, hmin⟩ := listMax_listMin_of_flat hw hflat
  have hamp : amplitude w = 0 := by
    unfold amplitude
    omega
  have hpk : countPeaks w = 0 := by
    unfold countPeaks
    rw [peakLoop_eq_zero]
    intro y hy
    rw [hflat y hy, hamp, hmin]
    unfold threshold5
    omega
  refine ⟨hamp, hpk, ?_⟩
  rw [updateMetrics_of_length hlen]
  have hb : (metricsOf w).bpm = 0 := by rw [metricsOf_bpm, hpk]; rfl
  have ha : (metricsOf w).amplitude = 0 := hamp
  have hq : (metricsOf w).quality = "Baja" := by
    show qualityOf (amplitude w) (countPeaks w) = "Baja"
    rw [hamp]
    rfl
  cases hm : metricsOf w with
  | mk b a q =>
    rw [hm] at hb ha hq
    simp only at hb ha hq
    rw [hb, ha, hq]

/-- C9 at thirty samples of 512. -/
theorem C9_flat_window_witness :
    30 ≤ (List.replicate 30 (512 : Int)).length ∧
    (∀ x ∈ List.replicate 30 (512 : Int), x = 512) ∧
    amplitude (List.replicate 30 512) = 0 ∧ countPeaks (List.replicate 30 512) = 0 ∧
      updateMetrics (List.replicate 30 512) = some (Metrics.mk 0 0 "Baja") :=
  ⟨by decide, fun _ hx => List.eq_of_mem_replicate hx,
    C9_flat_window (List.replicate 30 512) 512 (by decide)
      (fun _ hx => List.eq_of_mem_replicate hx)⟩

/-- C10, as stated, fails on large samples: `windowHuge` has 30 samples and
amplitude 256, its double threshold equals its maximum, so `updateMetrics` counts
no peak and shows 0 BPM and `"Sin pulso detectado"`. -/
theorem C10_no_pulse_label_shown_counterexample :
    windowHuge ≠ [] ∧ listMin windowHuge < listMax windowHuge ∧
    30 ≤ windowHuge.length ∧ 100 ≤ amplitudeDouble windowHuge ∧
    countPeaksDouble windowHuge = 0 ∧
    updateMetricsDouble windowHuge = some (Metrics.mk 0 256 "Sin pulso detectado") := by
  decide

/-- C10, amended. In `updateMetrics`, in double arithmetic, a non-empty window of
integers of magnitude at most `2^31` whose maximum exceeds its minimum has at
least one peak; so such a window with amplitude at least 100 gets quality
`"Buena"` and at least 12 BPM (and `updateMetrics` shows them when the window
has at least 30 samples), and `"Sin pulso detectado"` is shown for no such
window. -/
theorem C10_bounded_window_has_peak (w : List Int)
    (hb : ∀ x ∈ w, -2147483648 ≤ x ∧ x ≤ 2147483648) :
    (w ≠ [] → listMin w < listMax w → 1 ≤ countPeaksDouble w) ∧
    (100 ≤ amplitudeDouble w →
      (metricsOfDouble w).quality = "Buena" ∧ 12 ≤ (metricsOfDouble w).bpm) ∧
    (100 ≤ amplitudeDouble w → 30 ≤ w.length →
      ∃ m : Metrics, updateMetricsDouble w = some m ∧ m.quality = "Buena" ∧ 12 ≤ m.bpm) ∧
    (metricsOfDouble w).quality ≠ "Sin pulso detectado" ∧
    (∀ m : Metrics, updateMetricsDouble w = some m →
      m.quality ≠ "Sin pulso detectado") := by
  rw [countPeaksDouble_eq hb, amplitudeDouble_eq hb, metricsOfDouble_eq hb,
    updateMetricsDouble_eq hb]
  refine ⟨fun _ h => countPeaks_pos h, metricsOf_good, ?_, qualityOf_ne_no_pulse,
    fun m hm => updateMetrics_ne_no_pulse hm⟩
  intro hamp hlen
  exact ⟨metricsOf w, updateMetrics_of_length hlen, metricsOf_good hamp⟩

/-- C10 amended, at `windowPulse`: amplitude 198, eleven peaks. -/
theorem C10_bounded_window_has_peak_witness :
    (∀ x ∈ windowPulse, -2147483648 ≤ x ∧ x ≤ 2147483648) ∧
    windowPulse ≠ [] ∧ listMin windowPulse < listMax windowPulse ∧
    100 ≤ amplitudeDouble windowPulse ∧ 30 ≤ windowPulse.length ∧
    1 ≤ countPeaksDouble windowPulse ∧
    ((metricsOfDouble windowPulse).quality = "Buena" ∧
      12 ≤ (metricsOfDouble windowPulse).bpm) ∧
    (∃ m : Metrics, updateMetricsDouble windowPulse = some m ∧ m.quality = "Buena" ∧
      12 ≤ m.bpm) ∧
    updateMetricsDouble windowPulse = some (Metrics.mk 132 198 "Buena") :=
  ⟨by decide, by decide, by decide, by decide, by decide,
    (C10_bounded_window_has_peak windowPulse (by decide)).1 (by decide) (by decide),
    (C10_bounded_window_has_peak windowPulse (by decide)).2.1 (by decide),
    (C10_bounded_window_has_peak windowPulse (by decide)).2.2.1 (by decide) (by decide),
    by decide⟩

/-! ## The message handler -/

theorem onmessage_paused {s : State} (val : Int) (hp : s.isPaused = true) :
    onmessage s val = (s, []) := by
  unfold onmessage
  rw [if_pos hp]

theorem onmessage_zero {s : State} (hp : s.isPaused = false) :
    onmessage s 0 = (s, [updateStatus "Electrodos desconectados" false]) := by
  unfold onmessage
  rw [if_neg (by simp [hp]), if_pos rfl]

theorem onmessage_fst_isPaused (s : State) (val : Int) :
    (onmessage s val).1.isPaused = s.isPaused := by
  unfold onmessage
  split
  · rfl
  · split <;> rfl

theorem onmessage_fst_previousValues {s : State} {val : Int} (hp : s.isPaused = false)
    (hv : val ≠ 0) :
    (onmessage s val).1.previousValues = s.previousValues.tail ++ [val] := by
  unfold onmessage
  rw [if_neg (by simp [hp]), if_neg hv]
  rfl

theorem onmessage_fst_data {s : State} {val : Int} (hp : s.isPaused = false)
    (hv : val ≠ 0) :
    (onmessage s val).1.data = (s.data ++ [(movingAverage s.previousValues val).2]).tail := by
  unfold onmessage
  rw [if_neg (by simp [hp]), if_neg hv]

theorem onmessage_fst_lastDataPoints {s : State} {val : Int} (hp : s.isPaused = false)
    (hv : val ≠ 0) :
    (onmessage s val).1.lastDataPoints =
      if (s.lastDataPoints ++ [(movingAverage s.previousValues val).2]).length > 100
        then (s.lastDataPoints ++ [(movingAverage s.previousValues val).2]).tail
        else s.lastDataPoints ++ [(movingAverage s.previousValues val).2] := by
  unfold onmessage
  rw [if_neg (by simp [hp]), if_neg hv]

theorem onmessage_snd {s : State} {val : Int} (hp : s.isPaused = false) (hv : val ≠ 0) :
    (onmessage s val).2 =
      [updateStatus "Electrodos conectados" true]
        ++ (if (onmessage s val).1.lastDataPoints.length % 20 = 0
              then [Effect.metricsCall (updateMetrics (onmessage s val).1.lastDataPoints)]
              else [])
        ++ [Effect.chartUpdate true] := by
  unfold onmessage
  rw [if_neg (by simp [hp]), if_neg hv]

/-- An accepted sample triggers `updateMetrics` exactly when the length of
`lastDataPoints`, after the push and the eviction, is a multiple of 20. -/
theorem callsUpdateMetrics_onmessage {s : State} {val : Int} (hp : s.isPaused = false)
    (hv : val ≠ 0) :
    callsUpdateMetrics (onmessage s val).2 = true ↔
      (onmessage s val).1.lastDataPoints.length % 20 = 0 := by
  rw [onmessage_snd hp hv]
  by_cases h : (onmessage s val).1.lastDataPoints.length % 20 = 0
  · rw [if_pos h]
    simp [callsUpdateMetrics, updateStatus, h]
  · rw [if_neg h]
    simp [callsUpdateMetrics, updateStatus, h]

/-- Length of `lastDataPoints` after an accepted sample. -/
theorem onmessage_lastDataPoints_length {s : State} {val : Int} (hp : s.isPaused = false)
    (hv : val ≠ 0) :
    (onmessage s val).1.lastDataPoints.length =
      if s.lastDataPoints.length + 1 > 100 then s.lastDataPoints.length
        else s.lastDataPoints.length + 1 := by
  rw [onmessage_fst_lastDataPoints hp hv]
  by_cases h : s.lastDataPoints.length + 1 > 100
  · rw [if_pos (by simpa using h), if_pos h]
    simp
  · rw [if_neg (by simpa using h), if_neg h]
    simp

/-- Length of the chart buffer after an accepted sample. -/
theorem onmessage_data_length {s : State} {val : Int} (hp : s.isPaused = false)
    (hv : val ≠ 0) : (onmessage s val).1.data.length = s.data.length := by
  rw [onmessage_fst_data hp hv]
  simp

theorem onmessage_previousValues_length (s : State) (val : Int)
    (hlen : s.previousValues.length = 5) : (onmessage s val).1.previousValues.length = 5 := by
  by_cases hp : s.isPaused = true
  · rw [onmessage_paused val hp]; exact hlen
  · have hp' : s.isPaused = false := by simpa using hp
    by_cases hv : val = 0
    · subst hv; rw [onmessage_zero hp']; exact hlen
    · rw [onmessage_fst_previousValues hp' hv]
      simp [hlen]

/-- The lengths of the two buffers along a run, against the count of accepted
samples. -/
theorem run_lengths (events : List Event) (s : State) (n : Nat)
    (hwin : s.lastDataPoints.length = min n 100) (hdata : s.data.length = DATA_LENGTH) :
    (run s events).lastDataPoints.length = min (acceptedSinceReset s.isPaused n events) 100 ∧
      (run s events).data.length = DATA_LENGTH := by
  induction events generalizing s n with
  | nil => exact ⟨hwin, hdata⟩
  | cons e es ih =>
    have hrun : run s (e :: es) = run (step s e).1 es := rfl
    rw [hrun]
    cases e with
    | message val =>
      show (run (onmessage s val).1 es).lastDataPoints.length
          = min (acceptedSinceReset s.isPaused
              (if s.isPaused = false ∧ val ≠ 0 then n + 1 else n) es) 100 ∧ _
      have hpa := onmessage_fst_isPaused s val
      by_cases hp : s.isPaused = true
      · have h := ih (onmessage s val).1 n (by rw [onmessage_paused val hp]; exact hwin)
          (by rw [onmessage_paused val hp]; exact hdata)
        rw [hpa] at h
        rw [if_neg (by simp [hp])]
        exact h
      · have hp' : s.isPaused = false := by simpa using hp
        by_cases hv : val = 0
        · subst hv
          have h := ih (onmessage s 0).1 n (by rw [onmessage_zero hp']; exact hwin)
            (by rw [onmessage_zero hp']; exact hdata)
          rw [hpa] at h
          rw [if_neg (by simp)]
          exact h
        · have h := ih (onmessage s val).1 (n + 1)
            (by
              rw [onmessage_lastDataPoints_length hp' hv, hwin]
              split <;> omega)
            (by rw [onmessage_data_length hp' hv]; exact hdata)
          rw [hpa] at h
          rw [if_pos ⟨hp', hv⟩]
          exact h
    | pause => exact ih (pauseClick s).1 n hwin hdata
    | reset =>
      exact ih (resetClick s).1 0 (by simp [resetClick]) (by simp [resetClick])

theorem run_previousValues_length (events : List Event) (s : State)
    (hlen : s.previousValues.length = 5) : (run s events).previousValues.length = 5 := by
  induction events generalizing s with
  | nil => exact hlen
  | cons e es ih =>
    have hrun : run s (e :: es) = run (step s e).1 es := rfl
    rw [hrun]
    apply ih
    cases e with
    | message val => exact onmessage_previousValues_length s val hlen
    | pause => exact hlen
    | reset => simp [step, resetClick]

/-- On the n-th accepted sample since the start (or the last reset), the handler
calls `updateMetrics` exactly when `min n 100` is a multiple of 20: on every 20th
sample up to the 100th, and on every sample from the 100th on. -/
theorem callsUpdateMetrics_after_run (events : List Event) (val : Int)
    (hp : (run initialState events).isPaused = false) (hv : val ≠ 0) :
    callsUpdateMetrics (step (run initialState events) (Event.message val)).2 = true ↔
      min (acceptedSinceReset false 0 events + 1) 100 % 20 = 0 := by
  show callsUpdateMetrics (onmessage (run initialState events) val).2 = true ↔ _
  rw [callsUpdateMetrics_onmessage hp hv, onmessage_lastDataPoints_length hp hv]
  have h := (run_lengths events initialState 0 rfl rfl).1
  have e : initialState.isPaused = false := rfl
  rw [e] at h
  rw [h]
  split <;> omega

theorem updateStatus_disconnected :
    updateStatus "Electrodos desconectados" false
      = Effect.status "Estado: Electrodos desconectados" "status-box disconnected" := by
  decide

/-! ## Claims on the sample path -/

/-- C1. Moving average: from any state that is not paused and whose filter
history has five entries, after the raw samples `a1 .. a5`, each in 1..1023,
are received in a row, the history is exactly `[a1, a2, a3, a4, a5]` and the
filtered value computed for `a5`, which is the value appended to
`lastDataPoints` and to the chart buffer, is `Math.round((a1+a2+a3+a4+a5)/5)`:
the integer within 2/5 of the mean.  Nothing of the earlier history enters. -/
theorem C1_moving_average_of_last_five (s : State) (a1 a2 a3 a4 a5 : Int)
    (hp : s.isPaused = false) (hlen : s.previousValues.length = 5)
    (h1 : 1 ≤ a1 ∧ a1 ≤ 1023) (h2 : 1 ≤ a2 ∧ a2 ≤ 1023) (h3 : 1 ≤ a3 ∧ a3 ≤ 1023)
    (h4 : 1 ≤ a4 ∧ a4 ≤ 1023) (h5 : 1 ≤ a5 ∧ a5 ≤ 1023) :
    (movingAverage
        (run s [Event.message a1, Event.message a2, Event.message a3,
          Event.message a4]).previousValues a5).2
      = mathRound (a1 + a2 + a3 + a4 + a5) 5 ∧
    (run s [Event.message a1, Event.message a2, Event.message a3, Event.message a4,
        Event.message a5]).previousValues = [a1, a2, a3, a4, a5] ∧
    (run s [Event.message a1, Event.message a2, Event.message a3, Event.message a4,
        Event.message a5]).lastDataPoints.getLast?
      = some (mathRound (a1 + a2 + a3 + a4 + a5) 5) ∧
    (run s [Event.message a1, Event.message a2, Event.message a3, Event.message a4,
        Event.message a5]).data
      = ((run s [Event.message a1, Event.message a2, Event.message a3,
          Event.message a4]).data ++ [mathRound (a1 + a2 + a3 + a4 + a5) 5]).tail ∧
    5 * mathRound (a1 + a2 + a3 + a4 + a5) 5 - 2 ≤ a1 + a2 + a3 + a4 + a5 ∧
    a1 + a2 + a3 + a4 + a5 ≤ 5 * mathRound (a1 + a2 + a3 + a4 + a5) 5 + 2 := by
  have n1 : a1 ≠ 0 := by omega
  have n2 : a2 ≠ 0 := by omega
  have n3 : a3 ≠ 0 := by omega
  have n4 : a4 ≠ 0 := by omega
  have n5 : a5 ≠ 0 := by omega
  have r4 : run s [Event.message a1, Event.message a2, Event.message a3, Event.message a4]
      = (onmessage (onmessage (onmessage (onmessage s a1).1 a2).1 a3).1 a4).1 := rfl
  have r5 : run s [Event.message a1, Event.message a2, Event.message a3, Event.message a4,
      Event.message a5]
      = (onmessage (run s [Event.message a1, Event.message a2, Event.message a3,
          Event.message a4]) a5).1 := rfl
  have p1 : (onmessage s a1).1.isPaused = false := by rw [onmessage_fst_isPaused]; exact hp
  have p2 : (onmessage (onmessage s a1).1 a2).1.isPaused = false := by
    rw [onmessage_fst_isPaused]; exact p1
  have p3 : (onmessage (onmessage (onmessage s a1).1 a2).1 a3).1.isPaused = false := by
    rw [onmessage_fst_isPaused]; exact p2
  have p4 : (run s [Event.message a1, Event.message a2, Event.message a3,
      Event.message a4]).isPaused = false := by
    rw [r4, onmessage_fst_isPaused]; exact p3
  obtain ⟨q1, q2, q3, q4, q5, hq⟩ : ∃ q1 q2 q3 q4 q5 : Int,
      s.previousValues = [q1, q2, q3, q4, q5] := by
    match hs : s.previousValues, hlen with
    | [q1, q2, q3, q4, q5], _ => exact ⟨q1, q2, q3, q4, q5, rfl⟩
  have hist : (run s [Event.message a1, Event.message a2, Event.message a3,
      Event.message a4]).previousValues = [q5, a1, a2, a3, a4] := by
    rw [r4, onmessage_fst_previousValues p3 n4, onmessage_fst_previousValues p2 n3,
      onmessage_fst_previousValues p1 n2, onmessage_fst_previousValues hp n1, hq]
    rfl
  have avg : (movingAverage
      (run s [Event.message a1, Event.message a2, Event.message a3,
        Event.message a4]).previousValues a5).2 = mathRound (a1 + a2 + a3 + a4 + a5) 5 := by
    rw [hist]
    simp [movingAverage]
  refine ⟨avg, ?_, ?_, ?_, ?_, ?_⟩
  · rw [r5, onmessage_fst_previousValues p4 n5, hist]
    rfl
  · rw [r5, onmessage_fst_lastDataPoints p4 n5, avg]
    split
    · rename_i hgt
      rw [List.getLast?_eq_some_iff]
      cases hl : (run s [Event.message a1, Event.message a2, Event.message a3,
          Event.message a4]).lastDataPoints with
      | nil => rw [hl] at hgt; simp at hgt
      | cons y ys => exact ⟨ys, by simp⟩
    · simp
  · rw [r5, onmessage_fst_data p4 n5, avg]
  · unfold mathRound
    omega
  · unfold mathRound
    omega

/-- C1 at the initial state with the samples 100, 200, 300, 400, 502: the mean
is 300.4 and the filtered value is 300. -/
theorem C1_moving_average_of_last_five_witness :
    initialState.isPaused = false ∧ initialState.previousValues.length = 5 ∧
    (movingAverage
        (run initialState [Event.message 100, Event.message 200, Event.message 300,
          Event.message 400]).previousValues 502).2 = 300 ∧
    (movingAverage
        (run initialState [Event.message 100, Event.message 200, Event.message 300,
          Event.message 400]).previousValues 502).2
      = mathRound (100 + 200 + 300 + 400 + 502) 5 :=
  ⟨rfl, rfl, by decide,
    (C1_moving_average_of_last_five initialState 100 200 300 400 502 rfl rfl
      (by decide) (by decide) (by decide) (by decide) (by decide)).1⟩

/-- C2. The 101st accepted sample of a session (101 messages of value 512 from
the initial state) triggers `updateMetrics`, though 101 is no multiple of 20:
`lastDataPoints` has stayed at length 100. -/
theorem C2_metrics_called_on_sample_101 :
    acceptedSinceReset false 0 (List.replicate 101 (Event.message 512)) = 101 ∧
    101 % 20 ≠ 0 ∧
    (run initialState (List.replicate 101 (Event.message 512))).lastDataPoints.length = 100 ∧
    callsUpdateMetrics
      (step (run initialState (List.replicate 100 (Event.message 512)))
        (Event.message 512)).2 = true := by
  decide

/-- C3, as stated, fails: the raw value 2000, outside 0..1023, received in the
initial state (not paused) changes the filter history, the chart buffer and
`lastDataPoints`. -/
theorem C3_out_of_range_sample_discarded_counterexample :
    initialState.isPaused = false ∧ ¬ ((0 : Int) ≤ 2000 ∧ (2000 : Int) ≤ 1023) ∧
    (onmessage initialState 2000).1.previousValues = [0, 0, 0, 0, 2000] ∧
    (onmessage initialState 2000).1.lastDataPoints = [400] ∧
    (onmessage initialState 2000).1.previousValues ≠ initialState.previousValues ∧
    (onmessage initialState 2000).1.data ≠ initialState.data ∧
    (onmessage initialState 2000).1.lastDataPoints ≠ initialState.lastDataPoints := by
  decide

/-- C3, amended. The handler has no range check: in a state that is not paused
and whose filter history has its five entries, all integers of magnitude at
most `2^31`, a raw value outside 0..1023, of magnitude at most `2^31`, is
admitted like any non-zero sample.  The filter history drops its oldest entry
and takes the value, and stays five integers of magnitude at most `2^31`; the
rounded mean of the new history is appended to the chart buffer, which drops
its oldest entry, and to `lastDataPoints`, which drops its oldest entry once
longer than 100. -/
theorem C3_out_of_range_sample_admitted (s : State) (val : Int)
    (hp : s.isPaused = false) (hlen : s.previousValues.length = 5)
    (hhist : ∀ x ∈ s.previousValues, -2147483648 ≤ x ∧ x ≤ 2147483648)
    (hval : -2147483648 ≤ val ∧ val ≤ 2147483648)
    (hrange : ¬ (0 ≤ val ∧ val ≤ 1023)) :
    (onmessage s val).1.previousValues = s.previousValues.tail ++ [val] ∧
    (onmessage s val).1.previousValues.length = 5 ∧
    (∀ x ∈ (onmessage s val).1.previousValues, -2147483648 ≤ x ∧ x ≤ 2147483648) ∧
    (onmessage s val).1.data
      = (s.data ++ [mathRound ((s.previousValues.tail ++ [val]).foldl (fun a b => a + b) 0)
          (s.previousValues.tail ++ [val]).length]).tail ∧
    (onmessage s val).1.lastDataPoints
      = (if s.lastDataPoints.length + 1 > 100
          then (s.lastDataPoints ++
            [mathRound ((s.previousValues.tail ++ [val]).foldl (fun a b => a + b) 0)
              (s.previousValues.tail ++ [val]).length]).tail
          else s.lastDataPoints ++
            [mathRound ((s.previousValues.tail ++ [val]).foldl (fun a b => a + b) 0)
              (s.previousValues.tail ++ [val]).length]) := by
  have hv : val ≠ 0 := by
    rintro rfl
    exact hrange ⟨le_refl 0, by decide⟩
  refine ⟨onmessage_fst_previousValues hp hv, onmessage_previousValues_length s val hlen,
    ?_, ?_, ?_⟩
  · rw [onmessage_fst_previousValues hp hv]
    intro x hx
    rcases List.mem_append.mp hx with h | h
    · exact hhist x (List.mem_of_mem_tail h)
    · rw [List.mem_singleton.mp h]
      exact hval
  · rw [onmessage_fst_data hp hv]
    rfl
  · have hl : (s.lastDataPoints ++ [(movingAverage s.previousValues val).2]).length
        = s.lastDataPoints.length + 1 := by simp
    rw [onmessage_fst_lastDataPoints hp hv, hl]
    rfl

/-- C3 amended, at the initial state with the raw value -5: the filtered value
is `Math.round(-1) = -1`. -/
theorem C3_out_of_range_sample_admitted_witness :
    initialState.isPaused = false ∧ initialState.previousValues.length = 5 ∧
    (∀ x ∈ initialState.previousValues, -2147483648 ≤ x ∧ x ≤ 2147483648) ∧
    ((-2147483648 : Int) ≤ -5 ∧ (-5 : Int) ≤ 2147483648) ∧
    ¬ ((0 : Int) ≤ -5 ∧ (-5 : Int) ≤ 1023) ∧
    (onmessage initialState (-5)).1.previousValues = [0, 0, 0, 0, -5] ∧
    (onmessage initialState (-5)).1.lastDataPoints = [-1] ∧
    (onmessage initialState (-5)).1.previousValues
      = initialState.previousValues.tail ++ [-5] :=
  ⟨rfl, rfl, by decide, by decide, by decide, by decide, by decide,
    (C3_out_of_range_sample_admitted initialState (-5) rfl rfl (by decide) (by decide)
      (by decide)).1⟩

/-- C4. Disconnect sentinel: in a state that is not paused, the raw value 0
leaves the whole state as it was (filter history, chart buffer and
`lastDataPoints` included), calls `updateMetrics` not at all, and its only
effect is the status `"Estado: Electrodos desconectados"` with the class
`"status-box disconnected"`. -/
theorem C4_zero_sample_only_sets_status (s : State) (hp : s.isPaused = false) :
    (onmessage s 0).1 = s ∧
    (onmessage s 0).1.previousValues = s.previousValues ∧
    (onmessage s 0).1.data = s.data ∧
    (onmessage s 0).1.lastDataPoints = s.lastDataPoints ∧
    callsUpdateMetrics (onmessage s 0).2 = false ∧
    (onmessage s 0).2 = [updateStatus "Electrodos desconectados" false] ∧
    (onmessage s 0).2
      = [Effect.status "Estado: Electrodos desconectados" "status-box disconnected"] := by
  rw [onmessage_zero hp]
  exact ⟨rfl, rfl, rfl, rfl, rfl, rfl, by rw [updateStatus_disconnected]⟩

/-- C4 after three accepted samples. -/
theorem C4_zero_sample_only_sets_status_witness :
    (run initialState [Event.message 500, Event.message 510, Event.message 520]).isPaused
      = false ∧
    (onmessage (run initialState [Event.message 500, Event.message 510, Event.message 520])
        0).1.previousValues = [0, 0, 500, 510, 520] ∧
    (onmessage (run initialState [Event.message 500, Event.message 510, Event.message 520])
        0).2
      = [Effect.status "Estado: Electrodos desconectados" "status-box disconnected"] :=
  ⟨by decide, by decide,
    (C4_zero_sample_only_sets_status
      (run initialState [Event.message 500, Event.message 510, Event.message 520])
      (by decide)).2.2.2.2.2.2⟩

/-- C5. Reset: from every state, so from every state reached by any sequence of
events, the reset handler leaves the chart buffer at 250 copies of 512,
`lastDataPoints` empty and the filter history at five zeros, which are the
buffers of the initial state. -/
theorem C5_reset_restores_buffers (s : State) :
    (resetClick s).1.data = List.replicate 250 512 ∧
    (resetClick s).1.lastDataPoints = [] ∧
    (resetClick s).1.previousValues = [0, 0, 0, 0, 0] ∧
    (resetClick s).1.data = initialState.data ∧
    (resetClick s).1.lastDataPoints = initialState.lastDataPoints ∧
    (resetClick s).1.previousValues = initialState.previousValues ∧
    ∀ events : List Event,
      (step (run initialState events) Event.reset).1.data = List.replicate 250 512 ∧
      (step (run initialState events) Event.reset).1.lastDataPoints = [] ∧
      (step (run initialState events) Event.reset).1.previousValues = [0, 0, 0, 0, 0] :=
  ⟨rfl, rfl, rfl, rfl, rfl, rfl, fun _ => ⟨rfl, rfl, rfl⟩⟩

/-- C8. Buffer lengths: after any sequence of events from the initial state,
`lastDataPoints` has length `min n 100`, with `n` the number of accepted samples
since the start or the last reset, and the chart buffer has length 250; the
empty sequence is the initial state. -/
theorem C8_buffer_lengths (events : List Event) :
    (run initialState events).lastDataPoints.length
      = min (acceptedSinceReset false 0 events) 100 ∧
    (run initialState events).data.length = 250 :=
  run_lengths events initialState 0 rfl rfl

end ECG
